import Mathlib

/-!
Verification of the bcftools `+split` plugin (`src/plugins/split.c`).

The development shallowly embeds the plugin's record-transcoding engine,
its sample-group parser (`init_subsets`), its tag-retention parser (the
tag-parsing phase of `init_data`), the per-record fan-out loop (`process`)
and the top-level driver checks (`run`).  C strings are embedded as
`List Char`, raw binary bytes as `List Nat`, and machine integers as
`Nat`/`Int` (no value in the embedded fragments approaches an overflow
boundary, and the source performs no wrapping arithmetic on them).

Functions kept from htslib (external to this repository) are modelled
from the spec where the spec describes their contract; each such
definition carries a doc comment starting `Modelled from the spec:`.
-/

/-! ## Record model (bcf1_t as used by the plugin)

`bcf1_t` fields that `rec_set_info`/`rec_set_format` read or write:
`rid, pos, rlen, qual, n_allele, n_sample, n_info, n_fmt`, the raw
`shared` (site-level) byte block, the raw `indiv` (per-sample) byte
block, `unpack_size[0..2]` (byte lengths of the ID, REF+ALT and FILTER
preamble sections inside `shared`), the decoded site-level field list
`d.info`, the decoded per-sample field list `d.fmt`, and the `unpacked`
bit set.  `qual` is a C float that the plugin only copies verbatim, so
it is embedded as an opaque scalar slot (`Int`). -/

/-- One decoded site-level field (`bcf_info_t` as used by the plugin):
`key` is the numeric field id (`info->key`); `enc` is the full
self-describing encoded unit, i.e. the `vptr_len + vptr_off` bytes
starting at `vptr - vptr_off` (type descriptor plus value bytes). -/
structure InfoF where
  key : Nat
  enc : List Nat
deriving DecidableEq

/-- One decoded per-sample field (`bcf_fmt_t` as used by the plugin):
`id` (`fmt->id`), declared per-sample element count `n` (`fmt->n`),
element type `type` (`fmt->type`), per-sample byte stride `size`
(`fmt->size`) and the contiguous per-sample data bytes `p` (one
`size`-byte slice per input sample). -/
structure FmtF where
  id : Nat
  n : Nat
  type : Nat
  size : Nat
  p : List Nat
deriving DecidableEq

/-- The embedded `bcf1_t`. -/
structure Bcf1 where
  rid : Int
  pos : Int
  rlen : Int
  qual : Int
  n_allele : Nat
  n_sample : Nat
  n_info : Nat
  n_fmt : Nat
  shared : List Nat
  indiv : List Nat
  us0 : Nat
  us1 : Nat
  us2 : Nat
  info : List InfoF
  fmt : List FmtF
  unpacked : Nat
deriving DecidableEq

/-- `bcf_init1()`: a calloc-zeroed record. -/
def bcf_init1 : Bcf1 :=
  { rid := 0, pos := 0, rlen := 0, qual := 0, n_allele := 0, n_sample := 0,
    n_info := 0, n_fmt := 0, shared := [], indiv := [], us0 := 0, us1 := 0,
    us2 := 0, info := [], fmt := [], unpacked := 0 }

/-- The tag-retention state of `args_t` that the transcoder reads:
`keep_info`/`keep_fmt` and the two retained-id tables.  The source keeps
each table as a byte array `info_tags`/`fmt_tags` of declared length
`ninfo_tags`/`nfmt_tags` (zero-filled by `hts_expand0` up to capacity);
it is embedded as a `List Bool` whose length is the declared length. -/
structure ArgsT where
  keep_info : Bool
  keep_fmt : Bool
  info_tags : List Bool
  fmt_tags : List Bool

/-- The fields of `subset_t` that the transcoder and the per-record loop
use: the sample count `nsmpl`, the sample index array `smpl` and the
compiled filter (abstract boolean evaluator on the output record; the
group's header is bound at `filter_init` time). -/
structure RSet where
  nsmpl : Nat
  smpl : List Nat
  filter : Option (Bcf1 → Bool)

/-- Modelled from the spec: `bcf_enc_int1` (htslib, not in src/) emits
the typed-integer encoding of a per-sample field id; abstracted as an
opaque one-unit byte run carrying the id. -/
def bcf_enc_int1 (id : Nat) : List Nat := [id]

/-- Modelled from the spec: `bcf_enc_size` (htslib, not in src/) emits
the size/type descriptor of a per-sample field (declared count and
element type); abstracted as an opaque byte run carrying both. -/
def bcf_enc_size (n ty : Nat) : List Nat := [n, ty]

/-- The site-level retention test of `rec_set_info`: the source reads
`args->info_tags[id]` (ids at or beyond `ninfo_tags` read the
`hts_expand0`-zero-filled region, i.e. 0), embedded as `getD id false`. -/
def infoKept (args : ArgsT) (f : InfoF) : Bool :=
  args.info_tags.getD f.key false

/-- The per-sample retention test of `rec_set_format`; the source skips
a field iff `!args->keep_fmt && (id >= args->nfmt_tags ||
!args->fmt_tags[id])`, and `fmtKept` is the negation of that skip. -/
def fmtKept (args : ArgsT) (f : FmtF) : Bool :=
  !(!args.keep_fmt && (decide (args.fmt_tags.length ≤ f.id) || !(args.fmt_tags.getD f.id false)))

/-- `dst->unpacked &= ~BCF_UN_FMT` with `BCF_UN_FMT = 8`: clear bit 3. -/
def clearUnFmt (u : Nat) : Nat := u % 8 + u / 16 * 16

/-- `rec_set_info(args, set, rec, out)`: when `out` already exists
(scratch reuse) only `n_sample` is patched; otherwise a fresh record is
built: the fixed scalars are copied, and the site-level block is either
a verbatim copy of `rec->shared` (`keep_info`) or the ID/REF+ALT/FILTER
preamble (`unpack_size[0..2]` bytes of `shared`) followed by the encoded
units of exactly the retained site-level fields, in original order. -/
def rec_set_info (args : ArgsT) (set : RSet) (rec : Bcf1) (out : Option Bcf1) : Bcf1 :=
  match out with
  | some o => { o with n_sample := set.nsmpl }
  | none =>
    let o0 : Bcf1 :=
      { bcf_init1 with
        rid := rec.rid
        pos := rec.pos
        rlen := rec.rlen
        qual := rec.qual
        n_allele := rec.n_allele
        n_sample := set.nsmpl }
    if args.keep_info then
      { o0 with n_info := rec.n_info, shared := rec.shared }
    else
      let pre := rec.shared.take rec.us0
                 ++ (rec.shared.drop rec.us0).take rec.us1
                 ++ ((rec.shared.drop (rec.us0 + rec.us1)).take rec.us2)
      let ac :=
        if args.info_tags.length ≠ 0 then
          rec.info.foldl
            (fun (ac : List Nat × Nat) f =>
              if infoKept args f then (ac.1 ++ f.enc, ac.2 + 1) else ac)
            (pre, 0)
        else (pre, 0)
      { o0 with shared := ac.1, n_info := ac.2, unpacked := 0 }

/-- The per-sample byte run `rec_set_format` emits for one retained
field: `bcf_enc_int1(id)`, `bcf_enc_size(n, type)` (the field header),
then for each `j < set->nsmpl` the `fmt->size`-byte slice of sample
`set->smpl[j]` (`fmt->p + set->smpl[j]*fmt->size`). -/
def fmtUnit (set : RSet) (f : FmtF) : List Nat :=
  bcf_enc_int1 f.id ++ bcf_enc_size f.n f.type
    ++ ((List.range set.nsmpl).map
          (fun j => (f.p.drop (set.smpl.getD j 0 * f.size)).take f.size)).flatten

/-- `rec_set_format(args, set, src, dst)`: clears the FMT-unpacked bit,
then rebuilds the per-sample block from scratch (`tmp.l = 0`): for each
input per-sample field in original order that `fmtKept` retains, append
that field's `fmtUnit` and bump `n_fmt`. -/
def rec_set_format (args : ArgsT) (set : RSet) (src : Bcf1) (dst : Bcf1) : Bcf1 :=
  let ac :=
    src.fmt.foldl
      (fun (ac : List Nat × Nat) f =>
        if fmtKept args f then (ac.1 ++ fmtUnit set f, ac.2 + 1) else ac)
      ([], 0)
  { dst with unpacked := clearUnFmt dst.unpacked, n_fmt := ac.2, indiv := ac.1 }

/-- The record `process` produces for a group when given a fresh (NULL)
scratch record. -/
def freshOut (args : ArgsT) (set : RSet) (rec : Bcf1) : Bcf1 :=
  rec_set_format args set rec (rec_set_info args set rec none)

/-! ## The per-record fan-out loop (`process`) and the driver (`run`) -/

def FLT_INCLUDE : Nat := 1

def FLT_EXCLUDE : Nat := 2

/-- The emission decision of `process` for one group: `pass = 1` when
the group has no compiled filter; otherwise `pass = filter_test(...)`,
inverted when `args->filter_logic & FLT_EXCLUDE`. -/
def gate (logic : Nat) (set : RSet) (out : Bcf1) : Bool :=
  match set.filter with
  | none => true
  | some ft =>
    let pass := ft out
    if logic &&& FLT_EXCLUDE ≠ 0 then !pass else pass

/-- The group loop of `process`, with the scratch record threaded
exactly as in the source (`out` survives from one group to the next):
per group the produced entry is `some out` when the gate passes (the
record is written to the group's sink) and `none` otherwise. -/
def processGo (args : ArgsT) (logic : Nat) (rec : Bcf1) :
    List RSet → Option Bcf1 → List (Option Bcf1)
  | [], _ => []
  | set :: rest, scratch =>
    let out := rec_set_format args set rec (rec_set_info args set rec scratch)
    (if gate logic set out then some out else none) :: processGo args logic rec rest (some out)

/-- `process(args)` for one decoded input record: fan the record out
over all groups, starting from a NULL scratch record. -/
def process (args : ArgsT) (logic : Nat) (sets : List RSet) (rec : Bcf1) :
    List (Option Bcf1) :=
  processGo args logic rec sets none

/-- The streaming part of `run`: the conflicting-polarity check
(`args->filter_logic == (FLT_EXCLUDE|FLT_INCLUDE)`) happens before
`init_data` and before any record is pulled; afterwards every input
record is processed in order. -/
def runSplit (args : ArgsT) (logic : Nat) (sets : List RSet) (recs : List Bcf1) :
    Except Unit (List (List (Option Bcf1))) :=
  if logic = (FLT_INCLUDE ||| FLT_EXCLUDE) then Except.error ()
  else Except.ok (recs.map (process args logic sets))

/-- Per-group emitted-record count over a whole run: the number of
input records whose fan-out wrote to group `i`'s sink. -/
def emittedCount (args : ArgsT) (logic : Nat) (sets : List RSet) (recs : List Bcf1)
    (i : Nat) : Nat :=
  (recs.filter (fun rec => ((process args logic sets rec).getD i none).isSome)).length

/-! ## Tag-retention parsing (`init_data`, the `-k` specification)

The source walks the `keep_tags` C string with `strncasecmp` prefix
tests and `strcasecmp` whole-string tests; the embedding walks a
`List Char`.  Each loop iteration consumes at least one character, so a
fuel argument of `length + 1` always suffices; `parseTags` supplies it. -/

/-- `BCF_HL_FLT` (htslib header-line kinds). -/
def BCF_HL_FLT : Nat := 0

/-- `BCF_HL_INFO`. -/
def BCF_HL_INFO : Nat := 1

/-- `BCF_HL_FMT`. -/
def BCF_HL_FMT : Nat := 2

/-- The header operations the tag parser uses: `bcf_hdr_id2int(hdr,
BCF_DT_ID, name)` (numeric id of a field name, `-1` when absent) and
the per-kind presence test behind `bcf_hdr_idinfo_exists`. -/
structure TagHdr where
  id2int : List Char → Int
  idinfo : Nat → Nat → Bool

/-- Modelled from the spec: the htslib macro `bcf_hdr_idinfo_exists`
(not in src/) evaluates to false for a negative id and otherwise tests
whether the header declares the field id for the given line kind. -/
def bcf_hdr_idinfo_exists (hdr : TagHdr) (hl : Nat) (id : Int) : Bool :=
  if id < 0 then false else hdr.idinfo hl id.toNat

/-- Case-insensitive prefix test: `strncasecmp(pat, s, pat.length) == 0`
(a shorter `s` fails, matching the NUL mismatch in C). -/
def ncmpCI : List Char → List Char → Bool
  | [], _ => true
  | _ :: _, [] => false
  | p :: ps, c :: cs => (p.toLower == c.toLower) && ncmpCI ps cs

/-- Case-insensitive whole-string test: `strcasecmp(pat, s) == 0`. -/
def eqCI : List Char → List Char → Bool
  | [], [] => true
  | [], _ :: _ => false
  | _ :: _, [] => false
  | p :: ps, c :: cs => (p.toLower == c.toLower) && eqCI ps cs

/-- The name scan `while (*end && *end != ',')` plus the step past the
comma (`beg = tmp ? end + 1 : end`): returns the name and the remaining
input. -/
def scanName : List Char → List Char × List Char
  | [] => ([], [])
  | c :: cs =>
    if c = ',' then ([], cs)
    else
      let pr := scanName cs
      (c :: pr.1, pr.2)

/-- `if (id >= n) n = id + 1; hts_expand0(...); tags[id] = 1`: grow the
zero-filled table to cover `id` and set its flag. -/
def setTag (tags : List Bool) (id : Nat) : List Bool :=
  (if tags.length ≤ id then tags ++ List.replicate (id + 1 - tags.length) false else tags).set id true

/-- The running state of the tag parser: the sticky category flags
`is_info`/`is_fmt`, the keep-all flags and the two retained-id tables
(`ninfo_tags`/`nfmt_tags` are the table lengths). -/
structure TagState where
  is_info : Bool
  is_fmt : Bool
  keep_info : Bool
  keep_fmt : Bool
  info_tags : List Bool
  fmt_tags : List Bool

/-- The name-resolution step at the bottom of the tag-parsing loop:
look the name up (`bcf_hdr_id2int(hdr, BCF_DT_ID, beg)`) and record its
id in the table of the current sticky category, when the header
declares it for that category. -/
def recordName (hdr : TagHdr) (st : TagState) (name : List Char) : TagState :=
  let id := hdr.id2int name
  let st1 := if st.is_info && bcf_hdr_idinfo_exists hdr BCF_HL_INFO id then
               { st with info_tags := setTag st.info_tags id.toNat }
             else st
  if st1.is_fmt && bcf_hdr_idinfo_exists hdr BCF_HL_FMT id then
    { st1 with fmt_tags := setTag st1.fmt_tags id.toNat }
  else st1

/-- One tag-specification character list, decomposed exactly as the
source's `while (beg && *beg)` loop: marker prefixes first (`INFO/`,
bare `INFO`, `INFO,`, `FMT/`, `FORMAT/`, bare `FMT`/`FORMAT`, `FMT,`,
`FORMAT,`), otherwise scan a name and record it in the sticky
category. -/
def parseTagsGo (hdr : TagHdr) : Nat → List Char → TagState → TagState
  | 0, _, st => st
  | _ + 1, [], st => st
  | fuel + 1, s, st =>
    if ncmpCI ['I', 'N', 'F', 'O', '/'] s then
      let pr := scanName (s.drop 5)
      parseTagsGo hdr fuel pr.2
        (recordName hdr { st with is_info := true, is_fmt := false } pr.1)
    else if eqCI ['I', 'N', 'F', 'O'] s then { st with keep_info := true }
    else if ncmpCI ['I', 'N', 'F', 'O', ','] s then
      parseTagsGo hdr fuel (s.drop 5) { st with keep_info := true }
    else if ncmpCI ['F', 'M', 'T', '/'] s then
      let pr := scanName (s.drop 4)
      parseTagsGo hdr fuel pr.2
        (recordName hdr { st with is_info := false, is_fmt := true } pr.1)
    else if ncmpCI ['F', 'O', 'R', 'M', 'A', 'T', '/'] s then
      let pr := scanName (s.drop 7)
      parseTagsGo hdr fuel pr.2
        (recordName hdr { st with is_info := false, is_fmt := true } pr.1)
    else if eqCI ['F', 'M', 'T'] s then { st with keep_fmt := true }
    else if eqCI ['F', 'O', 'R', 'M', 'A', 'T'] s then { st with keep_fmt := true }
    else if ncmpCI ['F', 'M', 'T', ','] s then
      parseTagsGo hdr fuel (s.drop 4) { st with keep_fmt := true }
    else if ncmpCI ['F', 'O', 'R', 'M', 'A', 'T', ','] s then
      parseTagsGo hdr fuel (s.drop 7) { st with keep_fmt := true }
    else
      let pr := scanName s
      parseTagsGo hdr fuel pr.2 (recordName hdr st pr.1)

/-- The state before parsing: `args_t` is calloc-zeroed. -/
def initTagState : TagState :=
  { is_info := false, is_fmt := false, keep_info := false, keep_fmt := false,
    info_tags := [], fmt_tags := [] }

/-- The whole tag-parsing loop (`beg = args->keep_tags; while (beg &&
*beg) ...`): an absent `-k` option is the empty list. -/
def parseTags (hdr : TagHdr) (kt : List Char) : TagState :=
  parseTagsGo hdr (kt.length + 1) kt initTagState

/-- The tag-retention configuration after the two post-parse defaults of
`init_data`: an entirely empty selection keeps everything, and an empty
per-sample selection without `keep_fmt` forces `keep_fmt`. -/
def tagSetup (hdr : TagHdr) (kt : List Char) : TagState :=
  let st := parseTags hdr kt
  let st1 :=
    if !st.keep_info && !st.keep_fmt && st.info_tags.length == 0 && st.fmt_tags.length == 0 then
      { st with keep_info := true, keep_fmt := true }
    else st
  if !st1.keep_fmt && st1.fmt_tags.length == 0 then { st1 with keep_fmt := true } else st1

/-! ## Group parsing (`init_subsets`)

Each line of the `-S` samples file is parsed into one `subset_t`: a
first column of comma-separated sample names (backslash escaping before
the copy, unescaped whitespace terminates the column), an optional
second column of comma-separated replacement names, an output base
name.  `error(...)` aborts the program; it is embedded as
`Except.error`. -/

/-- C `isspace` on the characters a samples-file line can contain. -/
def isSpaceC (c : Char) : Bool :=
  c = ' ' || c = '\t' || c = '\n' || c = '\x0b' || c = '\x0c' || c = '\r'

/-- The header facts `init_subsets` uses: the input sample names in
header order. -/
structure SmplHdr where
  samples : List (List Char)

/-- `bcf_hdr_id2int(hdr, BCF_DT_SAMPLE, name)`: the sample's index in
header order, `-1` when the name is absent. -/
def id2sample (hdr : SmplHdr) (s : List Char) : Int :=
  match hdr.samples.findIdx? (fun t => t == s) with
  | some i => (i : Int)
  | none => -1

/-- The first-column scan of `init_subsets`: copy characters until an
unescaped whitespace character, handling `\\` escapes, and count commas
(each comma, escaped or not, bumps `nsmpl`).  Returns the copied
column, the number of commas seen, and the rest of the line starting at
the terminating whitespace character. -/
def scanCol1 : List Char → Bool → List Char × Nat × List Char
  | [], _ => ([], 0, [])
  | c :: cs, escaped =>
    if c = '\\' && !escaped then scanCol1 cs true
    else if isSpaceC c && !escaped then ([], 0, c :: cs)
    else
      let pr := scanCol1 cs false
      (c :: pr.1, (if c = ',' then pr.2.1 + 1 else pr.2.1), pr.2.2)

/-- The comma-splitting loop over the copied first column (`while
(*beg) { ... }`): one segment per iteration; a trailing comma leaves
`beg` at the NUL so no trailing empty segment is produced, and an empty
column runs zero iterations. -/
def splitCGo (cur : List Char) : List Char → List (List Char)
  | [] => [cur]
  | [','] => [cur]
  | ',' :: c :: cs => cur :: splitCGo [] (c :: cs)
  | c :: cs => splitCGo (cur ++ [c]) cs

/-- Comma segments of the first column, as the resolution loop visits
them. -/
def splitC : List Char → List (List Char)
  | [] => []
  | c :: cs => splitCGo [] (c :: cs)

/-- The rename-column loop of `init_subsets`: record a value, and after
stepping past a comma fail with `error("Expected the same number of
samples in the first and second column: ...")` once `j` reaches
`nsmpl`.  Only called on a nonempty rename column. -/
def renamesGo (nsmpl : Nat) (j : Nat) (cur : List Char) :
    List Char → Except Unit (List (List Char))
  | [] => Except.ok [cur]
  | [','] =>
    if nsmpl ≤ j + 1 then Except.error () else Except.ok [cur]
  | ',' :: c :: cs =>
    if nsmpl ≤ j + 1 then Except.error ()
    else (renamesGo nsmpl (j + 1) [] (c :: cs)).map (cur :: ·)
  | c :: cs => renamesGo nsmpl j (cur ++ [c]) cs

/-- The parse-time fields of one `subset_t` (the file handle, filter
and projected header are attached later, in `init_data`). -/
structure Subset where
  nsmpl : Nat
  smpl : List Nat
  rename : Option (List (List Char))
  fname : List Char
deriving DecidableEq

/-- `init_subsets` body for one samples-file line: scan the first
column, count `nsmpl = 1 + commas`, resolve each comma segment
(unresolvable names are warned on stderr and skipped; the calloc-zeroed
`smpl` array keeps its trailing zeros), drop the line when nothing
resolved (`if (!j) continue`), then parse the optional rename column
and derive the output base name. -/
def initSubsetLine (hdr : SmplHdr) (line : List Char) : Except Unit (Option Subset) :=
  let sc := scanCol1 line false
  let nsmpl := 1 + sc.2.1
  let names := splitC sc.1
  let resolved := names.filterMap
    (fun nm => let idx := id2sample hdr nm; if 0 ≤ idx then some idx.toNat else none)
  if resolved.length = 0 then Except.ok none
  else
    let smpl := resolved ++ List.replicate (nsmpl - resolved.length) 0
    let rest := sc.2.2.dropWhile isSpaceC
    if rest.isEmpty then
      Except.ok (some { nsmpl := nsmpl, smpl := smpl, rename := none,
                        fname := hdr.samples.getD (smpl.getD 0 0) [] })
    else
      match renamesGo nsmpl 0 [] rest with
      | Except.error e => Except.error e
      | Except.ok rn =>
        Except.ok (some { nsmpl := nsmpl, smpl := smpl, rename := some rn,
                          fname := rn.getD 0 [] })

/-- `init_subsets` with a samples file (`-S`): fold the per-line parse
over the lines, keeping groups in line order; a fatal error on any line
aborts the whole setup, before any output file is opened. -/
def init_subsets_explicit (hdr : SmplHdr) : List (List Char) → Except Unit (List Subset)
  | [] => Except.ok []
  | l :: ls =>
    match initSubsetLine hdr l with
    | Except.error e => Except.error e
    | Except.ok none => init_subsets_explicit hdr ls
    | Except.ok (some s) => (init_subsets_explicit hdr ls).map (s :: ·)

/-- `init_subsets` without a samples file: one group per input sample in
header order, each holding exactly that sample's index and named after
it. -/
def init_subsets_implicit (hdr : SmplHdr) : List Subset :=
  (List.range hdr.samples.length).map
    (fun i => { nsmpl := 1, smpl := [i], rename := none,
                fname := hdr.samples.getD i [] })

/-- The run-time view of a parsed group, as `process` and the
transcoder use it (`init_data` attaches the compiled filter). -/
def Subset.toR (s : Subset) (ft : Option (Bcf1 → Bool)) : RSet :=
  { nsmpl := s.nsmpl, smpl := s.smpl, filter := ft }

/-- The output file names `init_data` would open, one per retained
group (the part of `init_data` the error-ordering claims need: a group
dropped by `init_subsets` reserves no file, and a fatal parse error
means no file is ever opened). -/
def outputFileNames (hdr : SmplHdr) (lines : List (List Char)) :
    Except Unit (List (List Char)) :=
  (init_subsets_explicit hdr lines).map (fun sets => sets.map Subset.fname)

/-! ## Concrete instances used by witnesses and counterexamples -/

instance : Inhabited Subset := ⟨{ nsmpl := 0, smpl := [], rename := none, fname := [] }⟩

instance : Inhabited RSet := ⟨{ nsmpl := 0, smpl := [], filter := none }⟩

/-- A two-sample input header (samples `A`, `B`). -/
def hdrAB : SmplHdr := ⟨[['A'], ['B']]⟩

/-- A header dictionary declaring `GT` as a per-sample field (id 0) and
`DP` as a site-level field (id 1). -/
def hdrT : TagHdr :=
  ⟨fun s => if s = ['G', 'T'] then 0 else if s = ['D', 'P'] then 1 else -1,
   fun hl id => (hl == BCF_HL_FMT && id == 0) || (hl == BCF_HL_INFO && id == 1)⟩

/-- A concrete tag-retention configuration: keep all per-sample fields,
keep site-level id 1 only. -/
def argsW : ArgsT :=
  { keep_info := false, keep_fmt := true, info_tags := [false, true], fmt_tags := [] }

/-- A keep-everything configuration. -/
def argsKeepAll : ArgsT :=
  { keep_info := true, keep_fmt := true, info_tags := [], fmt_tags := [] }

/-- A concrete two-sample input record: preamble bytes `[7, 8, 9, 10]`
(`unpack_size = 1+2+1`), two site-level fields (ids 0 and 1), one
per-sample field (id 0, stride 2, samples' slices `[20, 21]` and
`[22, 23]`). -/
def recW : Bcf1 :=
  { bcf_init1 with
    rid := 3
    pos := 100
    rlen := 1
    qual := 60
    n_allele := 2
    n_sample := 2
    n_info := 2
    n_fmt := 1
    shared := [7, 8, 9, 10, 40, 41, 50, 51, 52]
    us0 := 1
    us1 := 2
    us2 := 1
    info := [{ key := 0, enc := [40, 41] }, { key := 1, enc := [50, 51, 52] }]
    fmt := [{ id := 0, n := 1, type := 1, size := 2, p := [20, 21, 22, 23] }] }

/-- A one-sample group picking input sample 1, no filter. -/
def setW : RSet := { nsmpl := 1, smpl := [1], filter := none }

/-- A stale scratch record whose site-level block is garbage. -/
def staleW : Bcf1 := { bcf_init1 with shared := [9, 9, 9] }

/-- A compiled-filter stand-in: accept records with no site-level
fields. -/
def ftW : Bcf1 → Bool := fun r => r.n_info == 0

/-- A one-sample group carrying the compiled filter `ftW`. -/
def setF : RSet := { nsmpl := 1, smpl := [0], filter := some ftW }

/-- A tag-parser state whose sticky category is per-sample (as after an
`FMT/` marker). -/
def stW : TagState :=
  { is_info := false, is_fmt := true, keep_info := false, keep_fmt := false,
    info_tags := [], fmt_tags := [] }


theorem emit_fold_eq {α : Type} (p : α → Bool) (u : α → List Nat) :
    ∀ (l : List α) (a : List Nat) (n : Nat),
      l.foldl
        (fun (ac : List Nat × Nat) f => if p f then (ac.1 ++ u f, ac.2 + 1) else ac)
        (a, n)
      = (a ++ ((l.filter p).map u).flatten, n + (l.filter p).length) := by
  intro l
  induction l with
  | nil => intro a n; simp
  | cons f t ih =>
    intro a n
    by_cases h : p f
    · simp [h, ih, List.append_assoc]
      omega
    · simp [h, ih]

theorem rec_set_format_indiv (args : ArgsT) (set : RSet) (src dst : Bcf1) :
    (rec_set_format args set src dst).indiv
      = ((src.fmt.filter (fmtKept args)).map (fmtUnit set)).flatten
    ∧ (rec_set_format args set src dst).n_fmt = (src.fmt.filter (fmtKept args)).length := by
  unfold rec_set_format
  rw [emit_fold_eq]
  simp

theorem infoKept_of_empty (args : ArgsT) (h : args.info_tags.length = 0) (f : InfoF) :
    infoKept args f = false := by
  unfold infoKept
  rw [List.length_eq_zero.mp h]
  rfl

theorem rec_set_info_selective (args : ArgsT) (set : RSet) (rec : Bcf1)
    (h : args.keep_info = false) :
    (rec_set_info args set rec none).shared
      = rec.shared.take (rec.us0 + rec.us1 + rec.us2)
        ++ ((rec.info.filter (infoKept args)).map InfoF.enc).flatten
    ∧ (rec_set_info args set rec none).n_info
      = (rec.info.filter (infoKept args)).length := by
  have hpre : rec.shared.take rec.us0
      ++ (rec.shared.drop rec.us0).take rec.us1
      ++ ((rec.shared.drop (rec.us0 + rec.us1)).take rec.us2)
      = rec.shared.take (rec.us0 + rec.us1 + rec.us2) := by
    rw [List.take_add, List.take_add]
  unfold rec_set_info
  by_cases hn : args.info_tags.length ≠ 0
  · simp [h, hn, emit_fold_eq, hpre]
  · have hz : args.info_tags.length = 0 := by omega
    have hfe : rec.info.filter (infoKept args) = [] := by
      apply List.filter_eq_nil_iff.mpr
      intro f _
      simp [infoKept_of_empty args hz f]
    simp [h, hn, hpre, hfe]

theorem rec_set_info_keep (args : ArgsT) (set : RSet) (rec : Bcf1)
    (h : args.keep_info = true) :
    (rec_set_info args set rec none).shared = rec.shared
    ∧ (rec_set_info args set rec none).n_info = rec.n_info := by
  unfold rec_set_info
  simp [h]

theorem reuse_eq_fresh (args : ArgsT) (set set' : RSet) (rec : Bcf1) :
    rec_set_format args set rec (rec_set_info args set rec (some (freshOut args set' rec)))
      = freshOut args set rec := by
  unfold freshOut rec_set_format rec_set_info
  by_cases h : args.keep_info <;> simp [h, clearUnFmt, bcf_init1]

theorem processGo_eq_map (args : ArgsT) (logic : Nat) (rec : Bcf1) :
    ∀ (sets : List RSet) (set' : RSet),
      processGo args logic rec sets (some (freshOut args set' rec))
        = sets.map (fun set =>
            if gate logic set (freshOut args set rec) then some (freshOut args set rec)
            else none) := by
  intro sets
  induction sets with
  | nil => intro set'; rfl
  | cons set rest ih =>
    intro set'
    simp only [processGo, List.map_cons, reuse_eq_fresh args set set' rec, ih set]

theorem process_eq_map (args : ArgsT) (logic : Nat) (sets : List RSet) (rec : Bcf1) :
    process args logic sets rec
      = sets.map (fun set =>
          if gate logic set (freshOut args set rec) then some (freshOut args set rec)
          else none) := by
  unfold process
  cases sets with
  | nil => rfl
  | cons set rest =>
    show (if gate logic set (freshOut args set rec) then some (freshOut args set rec) else none)
        :: processGo args logic rec rest (some (freshOut args set rec)) = _
    rw [processGo_eq_map args logic rec rest set]
    rfl

/-! ## Helper lemmas -/

theorem filterLen_eq_iff {α : Type} (p : α → Bool) :
    ∀ l : List α, (l.filter p).length = l.length ↔ ∀ a ∈ l, p a = true := by
  intro l
  induction l with
  | nil => simp
  | cons a t ih =>
    by_cases h : p a
    · simp [h, ih]
    · have hle := List.length_filter_le p t
      simp only [List.filter_cons, h, Bool.false_eq_true, if_false, List.length_cons]
      constructor
      · intro he; omega
      · intro hall
        exact absurd (hall a (List.mem_cons_self a t)) (by simp [h])

theorem implicit_getD (hdr : SmplHdr) (i : Nat) (h : i < hdr.samples.length) :
    (init_subsets_implicit hdr).getD i default
      = { nsmpl := 1, smpl := [i], rename := none, fname := hdr.samples.getD i [] } := by
  unfold init_subsets_implicit
  rw [List.getD_eq_getElem?_getD, List.getElem?_map, List.getElem?_range h]
  rfl

theorem fmtUnit_single (hdr : SmplHdr) (i : Nat) (f : FmtF) :
    fmtUnit ((Subset.toR { nsmpl := 1, smpl := [i], rename := none,
                           fname := hdr.samples.getD i [] }) none) f
      = bcf_enc_int1 f.id ++ bcf_enc_size f.n f.type ++ (f.p.drop (i * f.size)).take f.size := by
  simp [fmtUnit, Subset.toR, List.range_succ]

/-- C1: the per-sample block of the transcoded output is freshly
rebuilt and consists, for each input per-sample field in original order
that is retained (all of them under keep-all-sample), of a field header
(id, declared count, element type) followed by, for each sample index
in group order, that sample's fixed-stride raw byte slice; fields not
retained are omitted entirely.  In the implicit one-group-per-sample
configuration, group `i`'s per-sample block carries, for every retained
field, exactly input sample `i`'s slice. -/
theorem C1_per_sample_block :
    (∀ (args : ArgsT) (set : RSet) (src dst : Bcf1),
        (rec_set_format args set src dst).indiv
          = ((src.fmt.filter (fmtKept args)).map (fmtUnit set)).flatten
        ∧ (rec_set_format args set src dst).n_fmt
          = (src.fmt.filter (fmtKept args)).length)
  ∧ (∀ (args : ArgsT) (hdr : SmplHdr) (src dst : Bcf1) (i : Nat),
        i < hdr.samples.length →
        (rec_set_format args (((init_subsets_implicit hdr).getD i default).toR none)
            src dst).indiv
          = ((src.fmt.filter (fmtKept args)).map
              (fun f => bcf_enc_int1 f.id ++ bcf_enc_size f.n f.type
                        ++ (f.p.drop (i * f.size)).take f.size)).flatten) := by
  constructor
  · exact rec_set_format_indiv
  · intro args hdr src dst i h
    rw [implicit_getD hdr i h]
    rw [(rec_set_format_indiv args _ src dst).1]
    congr 1
    apply List.map_congr_left
    intro f _
    exact fmtUnit_single hdr i f

/-- C1 witness: the implicit configuration over the two-sample header,
group index 0, on the concrete record `recW`. -/
theorem C1_per_sample_block_witness :
    0 < hdrAB.samples.length
    ∧ (rec_set_format argsW (((init_subsets_implicit hdrAB).getD 0 default).toR none)
          recW bcf_init1).indiv
        = ((recW.fmt.filter (fmtKept argsW)).map
            (fun f => bcf_enc_int1 f.id ++ bcf_enc_size f.n f.type
                      ++ (f.p.drop (0 * f.size)).take f.size)).flatten :=
  ⟨by decide, C1_per_sample_block.2 argsW hdrAB recW bcf_init1 0 (by decide)⟩

/-- C2: with keep-all-site the output's site-level block is a verbatim
byte copy of the input's (`n_info` copied too); otherwise it is the
input's identifier/allele/filter preamble (the first
`unpack_size[0]+unpack_size[1]+unpack_size[2]` bytes of `shared`)
followed by the full self-describing encoded units of exactly the
retained site-level fields in original order, and the output site-level
field count is the number of retained fields. -/
theorem C2_site_block :
    (∀ (args : ArgsT) (set : RSet) (rec : Bcf1),
        args.keep_info = true →
        (rec_set_info args set rec none).shared = rec.shared
        ∧ (rec_set_info args set rec none).n_info = rec.n_info)
  ∧ (∀ (args : ArgsT) (set : RSet) (rec : Bcf1),
        args.keep_info = false →
        (rec_set_info args set rec none).shared
          = rec.shared.take (rec.us0 + rec.us1 + rec.us2)
            ++ ((rec.info.filter (infoKept args)).map InfoF.enc).flatten
        ∧ (rec_set_info args set rec none).n_info
          = (rec.info.filter (infoKept args)).length) :=
  ⟨rec_set_info_keep, rec_set_info_selective⟩

/-- C2 witness: the selective path on `recW` with `argsW` (retain
site-level id 1 only). -/
theorem C2_site_block_witness :
    argsW.keep_info = false
    ∧ ((rec_set_info argsW setW recW none).shared
        = recW.shared.take (recW.us0 + recW.us1 + recW.us2)
          ++ ((recW.info.filter (infoKept argsW)).map InfoF.enc).flatten
       ∧ (rec_set_info argsW setW recW none).n_info
        = (recW.info.filter (infoKept argsW)).length) :=
  ⟨rfl, C2_site_block.2 argsW setW recW rfl⟩

/-- C3 (amended): when the scratch output record is reused across
groups for one input record, the per-sample block is fully rewritten
for each group, while the site-level block is written only when the
scratch is first created (reuse merely patches the sample count);
because the site-level block does not depend on the group, the record
produced through the reused scratch is nevertheless identical to the
record that would be produced into a fresh output record, for every
group of the fan-out. -/
theorem C3_scratch_reuse :
    (∀ (args : ArgsT) (set set' : RSet) (rec : Bcf1),
        rec_set_format args set rec
            (rec_set_info args set rec (some (freshOut args set' rec)))
          = freshOut args set rec)
  ∧ (∀ (args : ArgsT) (logic : Nat) (sets : List RSet) (rec : Bcf1),
        process args logic sets rec
          = sets.map (fun set =>
              if gate logic set (freshOut args set rec) then some (freshOut args set rec)
              else none)) :=
  ⟨reuse_eq_fresh, process_eq_map⟩

/-- C3 counterexample: the site-level block is not rewritten on scratch
reuse — `rec_set_info` with an existing output record keeps that
record's site-level bytes unchanged (only the sample count is patched),
whereas a full rewrite would produce the fresh block. -/
theorem C3_counterexample :
    (rec_set_info argsKeepAll setW recW (some staleW)).shared = [9, 9, 9]
    ∧ (rec_set_info argsKeepAll setW recW none).shared
        = [7, 8, 9, 10, 40, 41, 50, 51, 52]
    ∧ [9, 9, 9] ≠ [7, 8, 9, 10, 40, 41, 50, 51, 52] := by
  refine ⟨rfl, rfl, by decide⟩

/-- C4: on the samples-file line `A,BAD` against input samples `A,B`,
the unresolvable name `BAD` is warned and skipped by the resolution
loop, but the group's sample count stays 2 (the number of names, not
the number of resolved names) and the index array keeps its
calloc-zero tail, yielding `smpl = [0, 0]` — a phantom second sample
aliasing input sample 0.  A line resolving no samples still yields no
group. -/
theorem C4_unresolved_name_kept :
    init_subsets_explicit hdrAB [['A', ',', 'B', 'A', 'D']]
      = Except.ok [{ nsmpl := 2, smpl := [0, 0], rename := none, fname := ['A'] }]
    ∧ init_subsets_explicit hdrAB [['B', 'A', 'D']] = Except.ok []
    ∧ outputFileNames hdrAB [['B', 'A', 'D']] = Except.ok [] :=
  ⟨rfl, rfl, rfl⟩

/-- C5: the rename-column length check only fires when the rename
column has more values than the first column has names: the line
`A,B X` (two names, one rename) is accepted without any error, leaving
a rename array with a missing entry, while the over-long line
`A X,Y` is rejected before any output file name is produced. -/
theorem C5_rename_undercount_accepted :
    init_subsets_explicit hdrAB [['A', ',', 'B', ' ', 'X']]
      = Except.ok [{ nsmpl := 2, smpl := [0, 1], rename := some [['X']], fname := ['X'] }]
    ∧ init_subsets_explicit hdrAB [['A', ' ', 'X', ',', 'Y']] = Except.error ()
    ∧ outputFileNames hdrAB [['A', ' ', 'X', ',', 'Y']] = Except.error () :=
  ⟨rfl, rfl, rfl⟩

theorem tagSetup_keep_fmt_or (hdr : TagHdr) (kt : List Char) :
    (tagSetup hdr kt).keep_fmt = true ∨ (tagSetup hdr kt).fmt_tags.length ≠ 0 := by
  unfold tagSetup
  generalize parseTags hdr kt = st
  dsimp only
  by_cases h1 : (!st.keep_info && !st.keep_fmt && st.info_tags.length == 0
      && st.fmt_tags.length == 0) = true
  · rw [if_pos h1]
    exact Or.inl rfl
  · rw [if_neg h1]
    by_cases h2 : (!st.keep_fmt && st.fmt_tags.length == 0) = true
    · rw [if_pos h2]
      exact Or.inl rfl
    · rw [if_neg h2]
      cases hkf : st.keep_fmt with
      | true => exact Or.inl rfl
      | false =>
        right
        intro hlen
        exact h2 (by simp [hkf, hlen])

/-- C6 (amended): after parsing a tag-retention specification, the
per-sample category always satisfies at least one of {keep-all-sample
set, explicit per-sample set non-empty} (the forced per-sample
default); the site-level category carries no such guarantee — a
specification retaining only per-sample fields leaves both the
keep-all-site flag unset and the site-level set empty.  When the
specification is empty, both keep-all flags are set and both explicit
sets are empty. -/
theorem C6_keep_flags :
    (∀ (hdr : TagHdr) (kt : List Char),
        (tagSetup hdr kt).keep_fmt = true ∨ (tagSetup hdr kt).fmt_tags.length ≠ 0)
  ∧ (∀ hdr : TagHdr,
        (tagSetup hdr []).keep_info = true ∧ (tagSetup hdr []).keep_fmt = true
        ∧ (tagSetup hdr []).info_tags = [] ∧ (tagSetup hdr []).fmt_tags = []) :=
  ⟨tagSetup_keep_fmt_or, fun _ => ⟨rfl, rfl, rfl, rfl⟩⟩

/-- C6 counterexample: for the specification `FMT/GT` (retain only the
per-sample field `GT`), the site-level category satisfies neither
alternative of the claimed "exactly one of {keep-all-site, explicit
site set non-empty}": the keep-all-site flag is false and the
site-level retained set is empty, while the per-sample set is
non-empty. -/
theorem C6_counterexample :
    (tagSetup hdrT ['F', 'M', 'T', '/', 'G', 'T']).keep_info = false
    ∧ (tagSetup hdrT ['F', 'M', 'T', '/', 'G', 'T']).info_tags.length = 0
    ∧ (tagSetup hdrT ['F', 'M', 'T', '/', 'G', 'T']).fmt_tags.length ≠ 0 := by
  refine ⟨rfl, rfl, by decide⟩

/-- C7: whenever parsing leaves the explicit per-sample retained set
empty, the final configuration has the keep-all-sample flag set (the
`init_data` fallback forces it when no bare FMT/FORMAT keyword already
set it), and under keep-all-sample the transcoder keeps every
per-sample field of the input record. -/
theorem C7_forced_keep_fmt :
    (∀ (hdr : TagHdr) (kt : List Char),
        (tagSetup hdr kt).fmt_tags.length = 0 → (tagSetup hdr kt).keep_fmt = true)
  ∧ (∀ (args : ArgsT) (set : RSet) (src dst : Bcf1),
        args.keep_fmt = true →
        (rec_set_format args set src dst).n_fmt = src.fmt.length
        ∧ (rec_set_format args set src dst).indiv = (src.fmt.map (fmtUnit set)).flatten) := by
  constructor
  · intro hdr kt h
    rcases tagSetup_keep_fmt_or hdr kt with hk | hn
    · exact hk
    · exact absurd h hn
  · intro args set src dst h
    have hk : ∀ f ∈ src.fmt, fmtKept args f = true := by
      intro f _
      simp [fmtKept, h]
    have hf : src.fmt.filter (fmtKept args) = src.fmt := List.filter_eq_self.mpr hk
    have hi := rec_set_format_indiv args set src dst
    rw [hf] at hi
    exact ⟨hi.2, hi.1⟩

/-- C7 witness: the specification `INFO/DP` retains no per-sample field,
so keep-all-sample is forced; and with keep-all-sample the transcoder
keeps `recW`'s one per-sample field. -/
theorem C7_forced_keep_fmt_witness :
    ((tagSetup hdrT ['I', 'N', 'F', 'O', '/', 'D', 'P']).fmt_tags.length = 0
      ∧ (tagSetup hdrT ['I', 'N', 'F', 'O', '/', 'D', 'P']).keep_fmt = true)
    ∧ (argsW.keep_fmt = true
      ∧ ((rec_set_format argsW setW recW bcf_init1).n_fmt = recW.fmt.length
        ∧ (rec_set_format argsW setW recW bcf_init1).indiv
            = (recW.fmt.map (fmtUnit setW)).flatten)) :=
  ⟨⟨by decide, C7_forced_keep_fmt.1 hdrT ['I', 'N', 'F', 'O', '/', 'D', 'P'] (by decide)⟩,
   ⟨rfl, C7_forced_keep_fmt.2 argsW setW recW bcf_init1 rfl⟩⟩

theorem process_getD (args : ArgsT) (logic : Nat) (sets : List RSet) (rec : Bcf1)
    (i : Nat) (h : i < sets.length) :
    (process args logic sets rec).getD i none
      = (if gate logic (sets.getD i default) (freshOut args (sets.getD i default) rec)
         then some (freshOut args (sets.getD i default) rec) else none) := by
  rw [process_eq_map, List.getD_eq_getElem?_getD,
      List.getElem?_map _ sets i, List.getElem?_eq_getElem h,
      List.getD_eq_getElem sets default h]
  rfl

/-- C8: a group with no compiled filter passes the gate unconditionally
and its record is emitted; with a compiled filter the gate is the raw
evaluation result, inverted exactly when the exclude polarity bit is
set; emission happens precisely when the gate passes; and configuring
both polarities (`filter_logic == (FLT_EXCLUDE|FLT_INCLUDE)`) is a
fatal setup error raised before any record is processed. -/
theorem C8_filter_gate :
    (∀ (logic : Nat) (set : RSet) (out : Bcf1),
        set.filter = none → gate logic set out = true)
  ∧ (∀ (logic : Nat) (set : RSet) (out : Bcf1) (ft : Bcf1 → Bool),
        set.filter = some ft →
        gate logic set out = (if logic &&& FLT_EXCLUDE ≠ 0 then !(ft out) else ft out))
  ∧ (∀ (args : ArgsT) (sets : List RSet) (recs : List Bcf1),
        runSplit args (FLT_INCLUDE ||| FLT_EXCLUDE) sets recs = Except.error ())
  ∧ (∀ (args : ArgsT) (logic : Nat) (sets : List RSet) (rec : Bcf1) (i : Nat),
        i < sets.length →
        (((process args logic sets rec).getD i none).isSome
          ↔ gate logic (sets.getD i default)
              (freshOut args (sets.getD i default) rec) = true)) := by
  refine ⟨?_, ?_, ?_, ?_⟩
  · intro logic set out h
    unfold gate
    rw [h]
  · intro logic set out ft h
    unfold gate
    rw [h]
  · intro args sets recs
    unfold runSplit
    rfl
  · intro args logic sets rec i h
    rw [process_getD args logic sets rec i h]
    by_cases hg : gate logic (sets.getD i default) (freshOut args (sets.getD i default) rec)
        = true
    · simp [hg]
    · simp [hg]

/-- C8 witness: the compiled-filter branch at exclude polarity on a
concrete group, and the conflicting-polarity rejection. -/
theorem C8_filter_gate_witness :
    (setF.filter = some ftW
      ∧ gate FLT_EXCLUDE setF recW
          = (if FLT_EXCLUDE &&& FLT_EXCLUDE ≠ 0 then !(ftW recW) else ftW recW))
    ∧ (0 < [setF].length
      ∧ (((process argsW FLT_EXCLUDE [setF] recW).getD 0 none).isSome
          ↔ gate FLT_EXCLUDE ([setF].getD 0 default)
              (freshOut argsW ([setF].getD 0 default) recW) = true)) :=
  ⟨⟨rfl, C8_filter_gate.2.1 FLT_EXCLUDE setF recW ftW rfl⟩,
   ⟨by decide, C8_filter_gate.2.2.2 argsW FLT_EXCLUDE [setF] recW 0 (by decide)⟩⟩

/-- C9: per group, the number of records emitted over a run never
exceeds the number of input records pulled; equality holds exactly when
the group has no compiled filter or the gate accepts every record of
the run. -/
theorem C9_emitted_counts (args : ArgsT) (logic : Nat) (sets : List RSet)
    (recs : List Bcf1) (i : Nat) (h : i < sets.length) :
    emittedCount args logic sets recs i ≤ recs.length
    ∧ (emittedCount args logic sets recs i = recs.length
        ↔ (sets.getD i default).filter = none
          ∨ ∀ rec ∈ recs,
              gate logic (sets.getD i default)
                (freshOut args (sets.getD i default) rec) = true) := by
  have hpred : ∀ rec : Bcf1,
      ((process args logic sets rec).getD i none).isSome
        = gate logic (sets.getD i default) (freshOut args (sets.getD i default) rec) := by
    intro rec
    rw [process_getD args logic sets rec i h]
    cases hg : gate logic (sets.getD i default) (freshOut args (sets.getD i default) rec) with
    | true => rfl
    | false => rfl
  have hflt : emittedCount args logic sets recs i
      = (recs.filter (fun rec =>
          gate logic (sets.getD i default) (freshOut args (sets.getD i default) rec))).length := by
    unfold emittedCount
    congr 1
    exact List.filter_congr (fun rec _ => hpred rec)
  constructor
  · rw [hflt]
    exact List.length_filter_le _ recs
  · rw [hflt, filterLen_eq_iff]
    constructor
    · exact Or.inr
    · rintro (hn | hall)
      · intro rec _
        unfold gate
        rw [hn]
      · exact hall

/-- C9 witness: one filterless group over a one-record run. -/
theorem C9_emitted_counts_witness :
    0 < [setW].length
    ∧ (emittedCount argsW 0 [setW] [recW] 0 ≤ [recW].length
      ∧ (emittedCount argsW 0 [setW] [recW] 0 = [recW].length
          ↔ ([setW].getD 0 default).filter = none
            ∨ ∀ rec ∈ [recW],
                gate 0 ([setW].getD 0 default)
                  (freshOut argsW ([setW].getD 0 default) rec) = true)) :=
  ⟨by decide, C9_emitted_counts argsW 0 [setW] [recW] 0 (by decide)⟩

theorem scanName_append (tok rest : List Char) (hc : ',' ∉ tok) :
    scanName (tok ++ ',' :: rest) = (tok, rest) := by
  induction tok with
  | nil => simp [scanName]
  | cons c t ih =>
    have hcc : ¬(c = ',') := fun he => hc (by rw [he]; exact List.mem_cons_self ',' t)
    have ht : ',' ∉ t := fun hm => hc (List.mem_cons_of_mem c hm)
    simp [scanName, hcc, ih ht]

/-- C10: tag-category stickiness.  A comma-separated token that carries
no category marker of its own (none of the `INFO/`, `INFO`, `INFO,`,
`FMT/`, `FORMAT/`, `FMT`, `FORMAT`, `FMT,`, `FORMAT,` heads match) is
consumed as a bare name: it is resolved and recorded in the current
sticky category (`recordName`), which it leaves unchanged, and parsing
continues on the rest; `recordName` never changes the sticky category
flags; and in the initial state (before any marker) a bare name is
ignored entirely. -/
theorem C10_sticky_category :
    (∀ (hdr : TagHdr) (fuel : Nat) (tok rest : List Char) (st : TagState),
        ',' ∉ tok →
        ncmpCI ['I', 'N', 'F', 'O', '/'] (tok ++ ',' :: rest) = false →
        eqCI ['I', 'N', 'F', 'O'] (tok ++ ',' :: rest) = false →
        ncmpCI ['I', 'N', 'F', 'O', ','] (tok ++ ',' :: rest) = false →
        ncmpCI ['F', 'M', 'T', '/'] (tok ++ ',' :: rest) = false →
        ncmpCI ['F', 'O', 'R', 'M', 'A', 'T', '/'] (tok ++ ',' :: rest) = false →
        eqCI ['F', 'M', 'T'] (tok ++ ',' :: rest) = false →
        eqCI ['F', 'O', 'R', 'M', 'A', 'T'] (tok ++ ',' :: rest) = false →
        ncmpCI ['F', 'M', 'T', ','] (tok ++ ',' :: rest) = false →
        ncmpCI ['F', 'O', 'R', 'M', 'A', 'T', ','] (tok ++ ',' :: rest) = false →
        parseTagsGo hdr (fuel + 1) (tok ++ ',' :: rest) st
          = parseTagsGo hdr fuel rest (recordName hdr st tok))
  ∧ (∀ (hdr : TagHdr) (st : TagState) (name : List Char),
        (recordName hdr st name).is_info = st.is_info
        ∧ (recordName hdr st name).is_fmt = st.is_fmt)
  ∧ (∀ (hdr : TagHdr) (st : TagState) (name : List Char),
        st.is_info = false → st.is_fmt = false → recordName hdr st name = st) := by
  refine ⟨?_, ?_, ?_⟩
  · intro hdr fuel tok rest st hc h1 h2 h3 h4 h5 h6 h7 h8 h9
    have hs := scanName_append tok rest hc
    cases htok : tok ++ ',' :: rest with
    | nil => cases tok <;> simp at htok
    | cons c cs =>
      rw [htok] at h1 h2 h3 h4 h5 h6 h7 h8 h9 hs
      simp only [parseTagsGo, h1, h2, h3, h4, h5, h6, h7, h8, h9, Bool.false_eq_true,
        if_false, hs]
  · intro hdr st name
    unfold recordName
    dsimp only
    constructor
    · split
      · split
        · rfl
        · rfl
      · split
        · rfl
        · rfl
    · split
      · split
        · rfl
        · rfl
      · split
        · rfl
        · rfl
  · intro hdr st name h1 h2
    unfold recordName
    simp [h1, h2]

/-- C10 witness: after an `FMT/` marker (state `stW`), the bare token
`DP` in `DP,GQ` is consumed as one name-resolution step in the
per-sample category. -/
theorem C10_sticky_category_witness :
    ',' ∉ ['D', 'P']
    ∧ parseTagsGo hdrT (5 + 1) (['D', 'P'] ++ ',' :: ['G', 'Q']) stW
        = parseTagsGo hdrT 5 ['G', 'Q'] (recordName hdrT stW ['D', 'P']) :=
  ⟨by decide,
   C10_sticky_category.1 hdrT 5 ['D', 'P'] ['G', 'Q'] stW (by decide) (by decide) (by decide)
     (by decide) (by decide) (by decide) (by decide) (by decide) (by decide) (by decide)⟩
